import Mathlib

/-!
Verification of the Gazette broker append FSM, the consumer shard resolver,
and the journal read client, as a shallow embedding of the Go source.

Conventions of the embedding:
* Go `error` values are the inductive `GoErr`; a nil-able error is `Option GoErr`.
  `errors.WithMessage` / `errors.Wrap` become the `GoErr.wrapped` constructor
  (Go's `errors.Wrap(nil, msg)` returns nil, modelled by `Option.map`).
* SHA-1 digests are modelled as the byte list that was summed (an injective
  stand-in for the hash; no claim depends on the hash function itself).
* Code external to the excerpt (the pipeline's stream plumbing, the spool's
  `Next()` computation, Etcd) is represented by recorded attributes on the
  state (e.g. `Spool.next` is the value `spool.Next()` returns) and by
  explicit parameters (e.g. the result of `gatherSync`).  Side effects that
  the FSM performs on those collaborators are recorded in an `Effect` list.
-/

/-- Go error values appearing in the modelled code paths. -/
inductive GoErr where
  | ioEOF
  | ioErrUnexpectedEOF
  | errExpectedEOF
  | errExpectedContentChunk
  | deadlineExceeded
  | errOffsetJump
  | errDidNotReadExpectedEOF
  | validation (msg : String)
  | wrapped (msg : String) (cause : GoErr)
deriving DecidableEq, Repr

/-- A process identifier (zone and suffix), as in pb.ProcessSpec_ID. -/
structure ProcessId where
  zone : String
  suffix : String
deriving DecidableEq, Repr

/-- The zero value of pb.ProcessSpec_ID. -/
def zeroProcessId : ProcessId := ⟨"", ""⟩

/-- A journal route: ordered member list plus the primary index (-1 if none). -/
structure Route where
  members : List ProcessId
  primary : Int
deriving DecidableEq, Repr

/-- Broker protocol status codes (pb.Status), the subset the claims touch. -/
inductive Status where
  | OK
  | JOURNAL_NOT_FOUND
  | NO_JOURNAL_PRIMARY_BROKER
  | NOT_JOURNAL_BROKER
  | NOT_JOURNAL_PRIMARY_BROKER
  | INSUFFICIENT_JOURNAL_BROKERS
  | WRONG_APPEND_OFFSET
  | INDEX_HAS_GREATER_OFFSET
  | NOT_ALLOWED
  | OFFSET_NOT_YET_AVAILABLE
deriving DecidableEq, Repr

/-- Consumer shard status codes (pc.Status). -/
inductive ShardStatus where
  | OK
  | SHARD_NOT_FOUND
  | NO_SHARD_PRIMARY
  | NOT_SHARD_PRIMARY
deriving DecidableEq, Repr

/-- A journal fragment (pb.Fragment).  The SHA-1 sum is modelled as the summed
byte list; the zero Sum is the empty list. -/
structure Fragment where
  journal : String := ""
  begin_ : Int := 0
  end_ : Int := 0
  sum : List Nat := []
  compressionCodec : Nat := 0
deriving DecidableEq, Repr

/-- ContentLength of pb.Fragment: End - Begin. -/
def Fragment.contentLength (f : Fragment) : Int := f.end_ - f.begin_

/-- A replication request (pb.ReplicateRequest) as scattered by the FSM. -/
structure ReplicateRequest where
  journal : String := ""
  headerAttached : Bool := false
  proposal : Option Fragment := none
  acknowledge : Bool := false
  content : List Nat := []
  contentDelta : Int := 0
deriving DecidableEq, Repr

/-- An append request (pb.AppendRequest).  `validateErr` records the result of
the external `req.Validate()` call (source not in the excerpt): `Validate`
returns either nil or a `pb.ValidationError`, never `io.EOF`. -/
structure AppendRequest where
  journal : String := ""
  offset : Int := 0
  content : List Nat := []
  validateErr : Option String := none
deriving DecidableEq, Repr

/-- The nil request passed by run() together with an injected error. -/
def nilAppendRequest : AppendRequest := {}

/-- The pipeline's spool as observed by the FSM (fragment.Spool).  `fragment`
is the embedded current Fragment (spool.Fragment.Fragment, whose End/Journal/
CompressionCodec are the promoted spool.End etc.).  `next` records the value
the external `spool.Next()` returns, and `nextProposal0` the value of the
external `nextProposal(spool, 0, spec.Fragment)`. -/
structure Spool where
  fragment : Fragment
  next : Fragment
  nextProposal0 : Fragment
deriving DecidableEq, Repr

/-- Promoted spool.End. -/
def Spool.End (s : Spool) : Int := s.fragment.end_

/-- Promoted spool.Journal. -/
def Spool.Journal (s : Spool) : String := s.fragment.journal

/-- Promoted spool.CompressionCodec. -/
def Spool.codec (s : Spool) : Nat := s.fragment.compressionCodec

/-- The replication pipeline as observed by the FSM: its spool and the latched
send/receive side errors (pipeline.sendErr() / pipeline.recvErr()).  Errors
only latch — once non-nil they never change — so their value is constant
within a single FSM step. -/
structure Pipeline where
  spool : Spool
  sendErrVal : Option GoErr
  recvErrVal : Option GoErr
deriving DecidableEq, Repr

/-- The resolved journal spec fields the FSM reads.  `desiredReplication`
records JournalSpec.DesiredReplication(), `mayWrite` Flags.MayWrite() (both
external protocol methods). -/
structure JournalSpec where
  name : String := ""
  desiredReplication : Int := 0
  mayWrite : Bool := true
deriving DecidableEq, Repr

/-- A broker resolution snapshot (the fields of `resolution` that the FSM
reads).  `indexEndOffset` records replica.index.EndOffset(). -/
structure Resolution where
  status : Status := .OK
  processId : ProcessId := zeroProcessId
  localId : ProcessId := zeroProcessId
  route : Route := ⟨[], -1⟩
  journalSpec : JournalSpec := {}
  etcdRevision : Int := 0
  indexEndOffset : Int := 0
deriving DecidableEq, Repr

/-- States of the append FSM (appendState).  `panicked` models a Go panic
(mustState violation, nil dereference, or the explicit invariant panic). -/
inductive AppendState where
  | resolve
  | acquire
  | start
  | sendSync
  | recvSync
  | updateAsn
  | awaitDesired
  | validateOffset
  | streamContent
  | readAcks
  | error
  | proxy
  | finished
  | panicked
deriving DecidableEq, Repr

/-- The append FSM state (appendFSM).  `plnReturnChHeld` models
`plnReturnCh != nil`; `clientSummer` is the byte list summed so far. -/
structure AppendFSM where
  req : AppendRequest := {}
  resolved : Resolution := {}
  pln : Option Pipeline := none
  plnReturnChHeld : Bool := false
  readThroughRev : Int := 0
  rollToOffset : Int := 0
  clientCommit : Bool := false
  clientFragment : Option Fragment := none
  clientSummer : List Nat := []
  state : AppendState := .resolve
  err : Option GoErr := none
deriving DecidableEq, Repr

/-- Observable side effects the FSM performs on its collaborators. -/
inductive Effect where
  | scatter (req : ReplicateRequest)
  | shutdownPipeline (expectErr : Bool)
  | returnPipeline (p : Option Pipeline)
  | closeSend
  | waitForBarrier
  | gatherOK
  | gatherEOF
  | closeAfterBarrier
  | injectDeadline
deriving DecidableEq, Repr

/-- Terminal tail of onStreamContent (part_003 lines 899-923): finalize the
client fragment sum, then scatter either the commit proposal `spool.Next()`
(iff err == io.EOF, no latched send error, and resolved status OK) or the
spool's current fragment as a rollback; `b.err` is `errors.Wrap`ped only on
the rollback path.  The commit path panics if clientCommit is unset. -/
def streamContentTerminal (pln : Pipeline) (b : AppendFSM) (commit : Bool)
    (err : Option GoErr) (cf : Fragment) (summer : List Nat) (status : Status)
    (fx : List Effect) : AppendFSM × List Effect :=
  let cfF := { cf with sum := summer }
  if err = some GoErr.ioEOF ∧ pln.sendErrVal = none ∧ status = Status.OK then
    if commit = false then
      ({ b with state := .panicked }, fx)
    else
      ({ b with clientFragment := some cfF, clientSummer := summer,
                resolved := { b.resolved with status := status },
                state := .readAcks },
       fx ++ [Effect.scatter { proposal := some pln.spool.next, acknowledge := true }])
  else
    ({ b with clientFragment := some cfF, clientSummer := summer,
              resolved := { b.resolved with status := status },
              err := err.map (GoErr.wrapped "append stream"),
              state := .readAcks },
     fx ++ [Effect.scatter { proposal := some pln.spool.fragment, acknowledge := true }])

/-- First-call initialization of onStreamContent (part_003 lines 840-862):
possibly scatter an un-acknowledged roll-forward proposal (which the local
spool applies) and create the client fragment descriptor and summer.  The
spool's application of that proposal is Modelled from the spec: per the
spec's proposal semantics the spool opens at the proposed boundary, so its
current fragment becomes the proposal (fragment/spool.go is not part of the
excerpt).  Returns the pipeline (with possibly rolled spool), the client
fragment, the summer, and the scatter effects. -/
def streamContentInit (b : AppendFSM) (pln0 : Pipeline) :
    Pipeline × Fragment × List Nat × List Effect :=
  let roll := b.clientFragment.isNone ∧ pln0.spool.fragment ≠ pln0.spool.nextProposal0
  let pln := if roll
             then { pln0 with spool := { pln0.spool with fragment := pln0.spool.nextProposal0 } }
             else pln0
  let fx0 : List Effect :=
    if roll
    then [Effect.scatter { proposal := some pln0.spool.nextProposal0, acknowledge := false }]
    else []
  let cf : Fragment :=
    match b.clientFragment with
    | some f => f
    | none => { journal := pln.spool.Journal, begin_ := pln.spool.End,
                end_ := pln.spool.End, sum := [], compressionCodec := pln.spool.codec }
  let summer : List Nat := if b.clientFragment.isNone then [] else b.clientSummer
  (pln, cf, summer, fx0)

/-- Chunk validation of onStreamContent (part_003 lines 864-869): on a nil
incoming error, take req.Validate()'s result, and reject a chunk carrying a
Journal as errExpectedContentChunk. -/
def streamContentErr (req : AppendRequest) (err0 : Option GoErr) : Option GoErr :=
  match err0 with
  | some e => some e
  | none =>
    match req.validateErr with
    | some s => some (GoErr.validation s)
    | none => if req.journal ≠ "" then some GoErr.errExpectedContentChunk else none

/-- Body of onStreamContent after the mustState and nil-pipeline guards
(part_003 lines 840-923). -/
def streamContentCore (req : AppendRequest) (err0 : Option GoErr) (b : AppendFSM)
    (pln0 : Pipeline) : AppendFSM × List Effect :=
  let i := streamContentInit b pln0
  let pln := i.1
  let cf := i.2.1
  let summer := i.2.2.1
  let fx0 := i.2.2.2
  let b1 := { b with pln := some pln, clientFragment := some cf, clientSummer := summer }
  let err := streamContentErr req err0
  if err = some GoErr.ioEOF ∧ b.clientCommit = false then
    streamContentTerminal pln b1 b.clientCommit (some GoErr.ioErrUnexpectedEOF) cf summer b.resolved.status fx0
  else if err = none ∧ b.clientCommit = true then
    streamContentTerminal pln b1 b.clientCommit (some GoErr.errExpectedEOF) cf summer b.resolved.status fx0
  else if err = none ∧ req.content = [] then
    ({ b1 with clientCommit := true }, fx0)
  else if err = none ∧ b.resolved.journalSpec.mayWrite = false then
    streamContentTerminal pln b1 b.clientCommit none cf summer Status.NOT_ALLOWED fx0
  else if err = none then
    let fx1 := fx0 ++ [Effect.scatter { content := req.content, contentDelta := cf.contentLength }]
    let cf1 := { cf with end_ := cf.end_ + (req.content.length : Int) }
    let summer1 := summer ++ req.content
    let b2 := { b1 with clientFragment := some cf1, clientSummer := summer1 }
    if pln.sendErrVal = none then (b2, fx1)
    else streamContentTerminal pln b2 b.clientCommit err cf1 summer1 b.resolved.status fx1
  else
    streamContentTerminal pln b1 b.clientCommit err cf summer b.resolved.status fx0

/-- Shallow embedding of appendFSM.onStreamContent (part_003 lines 837-923). -/
def onStreamContent (req : AppendRequest) (err0 : Option GoErr) (b : AppendFSM) :
    AppendFSM × List Effect :=
  if b.state ≠ AppendState.streamContent then ({ b with state := .panicked }, []) else
  match b.pln with
  | none => ({ b with state := .panicked }, [])
  | some pln0 => streamContentCore req err0 b pln0

/-- Shallow embedding of appendFSM.onValidateOffset (part_003 lines 804-833).
`refreshErr` is the result of the external blocking call
replica.index.WaitForFirstRemoteRefresh(ctx), which completes before any
offset check. -/
def onValidateOffset (refreshErr : Option GoErr) (b : AppendFSM) : AppendFSM :=
  if b.state ≠ AppendState.validateOffset then { b with state := .panicked } else
  match b.pln with
  | none => { b with state := .panicked }
  | some pln =>
    match refreshErr with
    | some e =>
      { b with err := some (GoErr.wrapped "WaitForFirstRemoteRefresh" e), state := .error }
    | none =>
      let maxOffset := max pln.spool.End b.resolved.indexEndOffset
      if pln.spool.End ≠ maxOffset ∧ b.req.offset = 0 ∧ b.resolved.journalSpec.mayWrite = true then
        { b with resolved := { b.resolved with status := Status.INDEX_HAS_GREATER_OFFSET },
                 state := .error }
      else if b.req.offset ≠ 0 ∧ b.req.offset ≠ maxOffset then
        { b with resolved := { b.resolved with status := Status.WRONG_APPEND_OFFSET },
                 state := .error }
      else if b.req.offset ≠ 0 ∧ pln.spool.End ≠ maxOffset then
        { b with rollToOffset := maxOffset, state := .sendSync }
      else
        { b with state := .streamContent }

/-- Shallow embedding of appendFSM.onRecvPipelineSync (part_003 lines 701-734).
`gatherRoll` and `gatherRev` are the pair returned by the external
pln.gatherSync(); the latched recv/send errors are read from the pipeline. -/
def onRecvPipelineSync (gatherRoll gatherRev : Int) (b : AppendFSM) :
    AppendFSM × List Effect :=
  if b.state ≠ AppendState.recvSync then ({ b with state := .panicked }, []) else
  match b.pln with
  | none => ({ b with state := .panicked }, [])
  | some pln =>
    let bg := { b with rollToOffset := gatherRoll, readThroughRev := gatherRev }
    let err : Option GoErr :=
      match pln.recvErrVal with
      | some e => some e
      | none => pln.sendErrVal
    match err with
    | some e =>
      ({ bg with err := some (GoErr.wrapped "gatherSync" e), pln := none, state := .error },
       [Effect.shutdownPipeline true])
    | none =>
      if gatherRoll ≠ 0 then
        ({ bg with err := none, state := .sendSync }, [])
      else if gatherRev ≠ 0 then
        ({ bg with err := none, pln := none, state := .resolve },
         [Effect.shutdownPipeline false])
      else
        ({ bg with err := none, state := .updateAsn }, [])

/-- Shallow embedding of appendFSM.onAwaitDesiredReplicas (part_003
lines 766-784). -/
def onAwaitDesiredReplicas (b : AppendFSM) : AppendFSM :=
  if b.state ≠ AppendState.awaitDesired then { b with state := .panicked } else
  let n : Int := (b.resolved.route.members.length : Int)
  let d : Int := b.resolved.journalSpec.desiredReplication
  if n > d then
    { b with readThroughRev := b.resolved.etcdRevision + 1, state := .resolve }
  else if n < d then
    { b with resolved := { b.resolved with status := Status.INSUFFICIENT_JOURNAL_BROKERS },
             state := .error }
  else if b.resolved.processId ≠ b.resolved.localId then
    { b with state := .proxy }
  else
    { b with state := .validateOffset }

/-- Shallow embedding of appendFSM.onReadAcknowledgements (part_003
lines 928-977).  The deferred close of the barrier's closeAfter signal runs
when the function returns, so it is the final effect on every path. -/
def onReadAcknowledgements (b : AppendFSM) : AppendFSM × List Effect :=
  if b.state ≠ AppendState.readAcks then ({ b with state := .panicked }, []) else
  match b.pln with
  | none => ({ b with state := .panicked }, [])
  | some pln =>
    let sendErr := pln.sendErrVal
    let fx1 : List Effect :=
      if sendErr = none then [Effect.returnPipeline (some pln)]
      else [Effect.closeSend, Effect.returnPipeline none]
    let fx2 := fx1 ++ [Effect.waitForBarrier, Effect.gatherOK]
      ++ (if sendErr = none then [] else [Effect.gatherEOF])
    let fxAll := fx2 ++ [Effect.closeAfterBarrier]
    let recvErr := pln.recvErrVal
    if b.err ≠ none ∨ b.resolved.status ≠ Status.OK then
      ({ b with plnReturnChHeld := false, state := .error }, fxAll)
    else if recvErr ≠ none then
      ({ b with plnReturnChHeld := false, err := recvErr, state := .error }, fxAll)
    else if sendErr ≠ none then
      ({ b with plnReturnChHeld := false, err := sendErr, state := .error }, fxAll)
    else
      ({ b with plnReturnChHeld := false, err := none, state := .finished }, fxAll)

/-- An input event of the streamContent consumption loop in appendFSM.run:
either a chunk delivered by the recv pump, or a tick of the
appendChunkTimeout ticker. -/
inductive StreamEvent where
  | chunk (req : AppendRequest) (err : Option GoErr)
  | tick
deriving Repr

/-- One iteration of the chunk/tick select loop of appendFSM.run (part_003
lines 509-522) over (FSM, sawChunk flag, accumulated effects): once the FSM
has left streamContent the loop has exited, so later events are not
consumed; a chunk is fed to onStreamContent and sets sawChunk; a tick with
sawChunk clear injects context.DeadlineExceeded (recorded as the
injectDeadline effect), and any tick clears sawChunk. -/
def runLoopStep (s : AppendFSM × Bool × List Effect) (e : StreamEvent) :
    AppendFSM × Bool × List Effect :=
  if s.1.state ≠ AppendState.streamContent then s
  else
    match e with
    | .chunk req err =>
      let r0 := onStreamContent req err s.1
      (r0.1, true, s.2.2 ++ r0.2)
    | .tick =>
      if s.2.1 then (s.1, false, s.2.2)
      else
        let r0 := onStreamContent nilAppendRequest (some GoErr.deadlineExceeded) s.1
        (r0.1, false, s.2.2 ++ (Effect.injectDeadline :: r0.2))

/-- Shallow embedding of the chunk/tick select loop of appendFSM.run:
consume the event sequence from the given FSM and sawChunk flag, returning
the final FSM, the final sawChunk flag, and the emitted effects. -/
def runLoop (b : AppendFSM) (sawChunk : Bool) (l : List StreamEvent) :
    AppendFSM × Bool × List Effect :=
  l.foldl runLoopStep (b, sawChunk, [])

/-- An event list keeps the timer fed when, at every tick, some chunk has
arrived since the previous tick (or since the loop started). -/
def wellFed : Bool → List StreamEvent → Bool
  | _, [] => true
  | _, .chunk _ _ :: es => wellFed true es
  | saw, .tick :: es => saw && wellFed false es

/-- A fragment reader (client.FragmentReader): the fragment being read and the
next journal offset. -/
structure FragmentReader where
  fragment : Fragment
  offset : Int
deriving DecidableEq, Repr

/-- Shallow embedding of FragmentReader.Read (reader.go lines 258-271).
`n0`/`decompErr` are the count and error returned by the underlying
decompressor read; the result is the updated reader, the returned count, and
the returned error. -/
def fragmentReaderRead (fr : FragmentReader) (n0 : Nat) (decompErr : Option GoErr) :
    FragmentReader × Int × Option GoErr :=
  let off := fr.offset + (n0 : Int)
  let fr1 := { fr with offset := off }
  if off > fr.fragment.end_ then
    (fr1, (n0 : Int) - (off - fr.fragment.end_), some GoErr.errDidNotReadExpectedEOF)
  else if decompErr = some GoErr.ioEOF ∧ off ≠ fr.fragment.end_ then
    (fr1, (n0 : Int), some GoErr.ioErrUnexpectedEOF)
  else
    (fr1, (n0 : Int), decompErr)

/-- A broker read response frame (pb.ReadResponse), with `validateErr`
recording the result of the external resp.Validate(). -/
structure ReadResponse where
  status : Status := .OK
  offset : Int := 0
  content : List Nat := []
  headerAttached : Bool := false
  fragmentUrl : String := ""
  validateErr : Option String := none
deriving DecidableEq, Repr

/-- The journal Reader state (client.Reader) relevant to processing a received
frame: the request offset and the most recent response. -/
structure JReader where
  reqOffset : Int
  response : ReadResponse := {}
deriving DecidableEq, Repr

/-- Outcome of handling one received frame in Reader.Read: either return
(count, error, updated reader), or recurse to read the next frame. -/
inductive ReadOutcome where
  | ret (n : Int) (err : Option GoErr) (r : JReader)
  | recurse (r : JReader)
deriving DecidableEq, Repr

/-- Shallow embedding of Reader.Read's handling of a successfully received
frame (reader.go lines 76-118): validate; reject an OK frame whose offset
regressed below the request offset; advance the request offset and flag
ErrOffsetJump when the frame's offset is ahead; return an empty read on OK,
recurse on a non-OK status.  The UpdateRoute advisory call on frames carrying
a Header is an untracked side effect. -/
def readerOnFrame (r0 : JReader) (resp : ReadResponse) : ReadOutcome :=
  let r := { r0 with response := resp }
  let err : Option GoErr :=
    match resp.validateErr with
    | some s => some (GoErr.validation s)
    | none =>
      if resp.status = Status.OK ∧ resp.offset < r.reqOffset then
        some (GoErr.validation "invalid ReadResponse offset")
      else none
  match err with
  | some e => ReadOutcome.ret 0 (some e) r
  | none =>
    let jump := r.reqOffset < resp.offset
    let r1 := if jump then { r with reqOffset := resp.offset } else r
    let err1 : Option GoErr := if jump then some GoErr.errOffsetJump else none
    if resp.status = Status.OK then ReadOutcome.ret 0 err1 r1
    else ReadOutcome.recurse r1

/-- Selection of the responsible ProcessId from a Route in the consumer
Resolver.Resolve (part_006 lines 233-235): the member at the primary index,
or the zero ProcessId when the route has no primary. -/
def routeProcessId (r : Route) : ProcessId :=
  if r.primary ≠ -1 then r.members.getD r.primary.toNat zeroProcessId
  else zeroProcessId

/-- Shallow embedding of the response status selection of the consumer
Resolver.Resolve (part_006 lines 238-246): SHARD_NOT_FOUND if the spec is
missing, else NO_SHARD_PRIMARY if the selected ProcessId is zero, else
NOT_SHARD_PRIMARY if proxying is disallowed and the primary is remote, else
OK. -/
def shardResolveStatus (specPresent : Bool) (route : Route) (mayProxy : Bool)
    (localId : ProcessId) : ShardStatus :=
  let processId := routeProcessId route
  if specPresent = false then ShardStatus.SHARD_NOT_FOUND
  else if processId = zeroProcessId then ShardStatus.NO_SHARD_PRIMARY
  else if mayProxy = false ∧ processId ≠ localId then ShardStatus.NOT_SHARD_PRIMARY
  else ShardStatus.OK

lemma streamContentInit_next (b : AppendFSM) (p : Pipeline) :
    (streamContentInit b p).1.spool.next = p.spool.next := by
  simp only [streamContentInit]
  split_ifs <;> rfl

lemma streamContentInit_sendErr (b : AppendFSM) (p : Pipeline) :
    (streamContentInit b p).1.sendErrVal = p.sendErrVal := by
  simp only [streamContentInit]
  split_ifs <;> rfl

lemma streamContentErr_eof_iff (req : AppendRequest) (err0 : Option GoErr) :
    streamContentErr req err0 = some GoErr.ioEOF ↔ err0 = some GoErr.ioEOF := by
  cases err0 with
  | some e => simp [streamContentErr]
  | none =>
    simp only [streamContentErr]
    cases req.validateErr with
    | some s => simp
    | none => split_ifs <;> simp

lemma streamContentTerminal_commit (p : Pipeline) (b : AppendFSM) (commit : Bool)
    (err : Option GoErr) (cf : Fragment) (summer : List Nat) (st : Status) (fx : List Effect)
    (h1 : err = some GoErr.ioEOF) (h2 : p.sendErrVal = none) (h3 : st = Status.OK)
    (hc : commit = true) :
    streamContentTerminal p b commit err cf summer st fx =
      ({ b with clientFragment := some { cf with sum := summer }, clientSummer := summer,
                resolved := { b.resolved with status := st }, state := .readAcks },
       fx ++ [Effect.scatter { proposal := some p.spool.next, acknowledge := true }]) := by
  simp only [streamContentTerminal]
  rw [if_pos ⟨h1, h2, h3⟩, if_neg (by simp [hc])]

lemma streamContentTerminal_rollback (p : Pipeline) (b : AppendFSM) (commit : Bool)
    (err : Option GoErr) (cf : Fragment) (summer : List Nat) (st : Status) (fx : List Effect)
    (h : ¬(err = some GoErr.ioEOF ∧ p.sendErrVal = none ∧ st = Status.OK)) :
    streamContentTerminal p b commit err cf summer st fx =
      ({ b with clientFragment := some { cf with sum := summer }, clientSummer := summer,
                resolved := { b.resolved with status := st },
                err := err.map (GoErr.wrapped "append stream"), state := .readAcks },
       fx ++ [Effect.scatter { proposal := some p.spool.fragment, acknowledge := true }]) := by
  simp only [streamContentTerminal]
  rw [if_neg h]

lemma onStreamContent_eq_core (req : AppendRequest) (err0 : Option GoErr) (b : AppendFSM)
    (p : Pipeline) (hs : b.state = AppendState.streamContent) (hp : b.pln = some p) :
    onStreamContent req err0 b = streamContentCore req err0 b p := by
  simp only [onStreamContent, hs, hp]
  rw [if_neg (by simp)]

/-- Claim C1: on every terminal input of the streamContent state, the FSM
scatters an acknowledged proposal; the proposal is the commit proposal
spool.Next() exactly when the input was an error-free EOF after a prior
empty chunk (clientCommit), the pipeline's send side has not errored, and
the resolved status is OK; in every other terminal case it is the spool's
current fragment, an acknowledged rollback. -/
theorem onStreamContent_commit_iff (b : AppendFSM) (p : Pipeline)
    (req : AppendRequest) (err0 : Option GoErr)
    (hs : b.state = AppendState.streamContent) (hp : b.pln = some p) :
    ((onStreamContent req err0 b).1.state = AppendState.readAcks →
      (((err0 = some GoErr.ioEOF ∧ b.clientCommit = true ∧ p.sendErrVal = none ∧
           b.resolved.status = Status.OK) →
         ∃ l, (onStreamContent req err0 b).2 =
           l ++ [Effect.scatter { proposal := some p.spool.next, acknowledge := true }]) ∧
       (¬(err0 = some GoErr.ioEOF ∧ b.clientCommit = true ∧ p.sendErrVal = none ∧
           b.resolved.status = Status.OK) →
         ∃ pln1 l, (onStreamContent req err0 b).1.pln = some pln1 ∧
           (onStreamContent req err0 b).2 =
             l ++ [Effect.scatter { proposal := some pln1.spool.fragment, acknowledge := true }]))) := by
  rw [onStreamContent_eq_core req err0 b p hs hp]
  intro hterm
  constructor
  · rintro ⟨h1, h2, h3, h4⟩
    have he : streamContentErr req err0 = some GoErr.ioEOF := by
      rw [streamContentErr_eof_iff]; exact h1
    have hsnd : (streamContentInit b p).1.sendErrVal = none := by
      rw [streamContentInit_sendErr]; exact h3
    simp only [streamContentCore]
    rw [if_neg (by simp [he, h2]), if_neg (by simp [he]), if_neg (by simp [he]),
        if_neg (by simp [he]), if_neg (by simp [he]),
        streamContentTerminal_commit _ _ _ _ _ _ _ _ he hsnd h4 h2,
        streamContentInit_next]
    exact ⟨_, rfl⟩
  · intro hC
    simp only [streamContentCore] at hterm ⊢
    split_ifs at hterm ⊢ with hb1 hb2 hb3 hb4 hb5 hb6
    · rw [streamContentTerminal_rollback _ _ _ _ _ _ _ _ (by simp)]
      exact ⟨_, _, rfl, rfl⟩
    · rw [streamContentTerminal_rollback _ _ _ _ _ _ _ _ (by simp)]
      exact ⟨_, _, rfl, rfl⟩
    · exfalso
      simp [hs] at hterm
    · rw [streamContentTerminal_rollback _ _ _ _ _ _ _ _ (by simp)]
      exact ⟨_, _, rfl, rfl⟩
    · exfalso
      simp [hs] at hterm
    · rw [streamContentTerminal_rollback _ _ _ _ _ _ _ _ (by simp [hb5])]
      exact ⟨_, _, rfl, rfl⟩
    · have hnot : ¬(streamContentErr req err0 = some GoErr.ioEOF ∧
          (streamContentInit b p).1.sendErrVal = none ∧ b.resolved.status = Status.OK) := by
        by_cases hio : streamContentErr req err0 = some GoErr.ioEOF
        · have he0 : err0 = some GoErr.ioEOF := (streamContentErr_eof_iff req err0).mp hio
          have hcommit : b.clientCommit = true := by
            by_contra hcc
            exact hb1 ⟨hio, by simpa using hcc⟩
          rintro ⟨_, hsnd, hst⟩
          rw [streamContentInit_sendErr] at hsnd
          exact hC ⟨he0, hcommit, hsnd, hst⟩
        · rintro ⟨hh, _⟩
          exact hio hh
      rw [streamContentTerminal_rollback _ _ _ _ _ _ _ _ hnot]
      exact ⟨_, _, rfl, rfl⟩

/-- Concrete journal fragment fixture. -/
def fragFx : Fragment := { journal := "j", begin_ := 0, end_ := 9 }

/-- Concrete successor fragment fixture (empty, at offset 9). -/
def fragFxNext : Fragment := { journal := "j", begin_ := 9, end_ := 9 }

/-- Concrete spool fixture. -/
def spoolFx : Spool := { fragment := fragFx, next := fragFxNext, nextProposal0 := fragFx }

/-- Concrete healthy pipeline fixture. -/
def plnFx : Pipeline := { spool := spoolFx, sendErrVal := none, recvErrVal := none }

/-- Concrete pipeline fixture with a latched send error. -/
def plnFxErr : Pipeline :=
  { spool := spoolFx, sendErrVal := some (GoErr.validation "send broke"), recvErrVal := none }

/-- Concrete streaming FSM fixture for the commit case. -/
def fsmC1 : AppendFSM :=
  { pln := some plnFx, clientCommit := true, clientFragment := some fragFxNext,
    state := .streamContent }

/-- Witness for onStreamContent_commit_iff: a commit-condition input at a
concrete state scatters the spool's next fragment, acknowledged. -/
theorem onStreamContent_commit_iff_witness :
    ∃ l, (onStreamContent nilAppendRequest (some GoErr.ioEOF) fsmC1).2 =
      l ++ [Effect.scatter { proposal := some plnFx.spool.next, acknowledge := true }] :=
  ((onStreamContent_commit_iff fsmC1 plnFx nilAppendRequest (some GoErr.ioEOF) rfl rfl)
    (by decide)).1 ⟨rfl, rfl, rfl, rfl⟩

/-- Claim C2: onValidateOffset first completes (or errors on) the
first-remote-refresh wait; then, with max_offset the maximum of the spool End
and the index EndOffset: a trailing spool with no explicit request offset on
a writable journal errors with INDEX_HAS_GREATER_OFFSET; a non-zero request
offset differing from max_offset errors with WRONG_APPEND_OFFSET; a non-zero
request offset equal to max_offset with a trailing spool rolls the pipeline
to max_offset via sendPipelineSync; otherwise the FSM streams content. -/
theorem onValidateOffset_cases (b : AppendFSM) (p : Pipeline) (refreshErr : Option GoErr)
    (hs : b.state = AppendState.validateOffset) (hp : b.pln = some p) :
    ((∀ e, refreshErr = some e →
       onValidateOffset refreshErr b =
         { b with err := some (GoErr.wrapped "WaitForFirstRemoteRefresh" e), state := .error }) ∧
     (refreshErr = none →
      ((p.spool.End ≠ max p.spool.End b.resolved.indexEndOffset ∧ b.req.offset = 0 ∧
          b.resolved.journalSpec.mayWrite = true →
        onValidateOffset refreshErr b =
          { b with resolved := { b.resolved with status := Status.INDEX_HAS_GREATER_OFFSET },
                   state := .error }) ∧
       (b.req.offset ≠ 0 ∧ b.req.offset ≠ max p.spool.End b.resolved.indexEndOffset →
        onValidateOffset refreshErr b =
          { b with resolved := { b.resolved with status := Status.WRONG_APPEND_OFFSET },
                   state := .error }) ∧
       (b.req.offset ≠ 0 ∧ b.req.offset = max p.spool.End b.resolved.indexEndOffset ∧
          p.spool.End ≠ max p.spool.End b.resolved.indexEndOffset →
        onValidateOffset refreshErr b =
          { b with rollToOffset := max p.spool.End b.resolved.indexEndOffset,
                   state := .sendSync }) ∧
       (¬(p.spool.End ≠ max p.spool.End b.resolved.indexEndOffset ∧ b.req.offset = 0 ∧
            b.resolved.journalSpec.mayWrite = true) →
        ¬(b.req.offset ≠ 0 ∧ b.req.offset ≠ max p.spool.End b.resolved.indexEndOffset) →
        ¬(b.req.offset ≠ 0 ∧ p.spool.End ≠ max p.spool.End b.resolved.indexEndOffset) →
        onValidateOffset refreshErr b = { b with state := .streamContent })))) := by
  constructor
  · rintro e rfl
    simp only [onValidateOffset, hs, hp]
    rw [if_neg (by simp)]
  · rintro rfl
    refine ⟨?_, ?_, ?_, ?_⟩
    · intro h
      simp only [onValidateOffset, hs, hp]
      rw [if_neg (by simp), if_pos h]
    · intro h
      simp only [onValidateOffset, hs, hp]
      rw [if_neg (by simp), if_neg (by rintro ⟨_, h0, _⟩; exact h.1 h0), if_pos h]
    · intro h
      simp only [onValidateOffset, hs, hp]
      rw [if_neg (by simp), if_neg (by rintro ⟨_, h0, _⟩; exact h.1 h0),
          if_neg (by rintro ⟨_, hne⟩; exact hne h.2.1), if_pos ⟨h.1, h.2.2⟩]
    · intro h1 h2 h3
      simp only [onValidateOffset, hs, hp]
      rw [if_neg (by simp), if_neg h1, if_neg h2, if_neg h3]

/-- Concrete FSM fixture in the validateOffset state whose spool matches the
index end offset. -/
def fsmC2 : AppendFSM :=
  { pln := some plnFx, state := .validateOffset,
    resolved := { indexEndOffset := 9 } }

/-- Witness for onValidateOffset_cases: a clean refresh with matching offsets
transitions to streamContent. -/
theorem onValidateOffset_cases_witness :
    onValidateOffset none fsmC2 = { fsmC2 with state := .streamContent } :=
  ((onValidateOffset_cases fsmC2 plnFx none rfl rfl).2 rfl).2.2.2
    (by decide) (by decide) (by decide)

/-- Claim C3: onRecvPipelineSync tears the pipeline down (expecting error) and
errors if either pipeline side has latched an error; otherwise a non-zero
rollToOffset from gatherSync loops back to sendPipelineSync (taking
precedence over any readThroughRev), a non-zero readThroughRev tears the
pipeline down and re-resolves, and otherwise the FSM proceeds to
updateAssignments. -/
theorem onRecvPipelineSync_cases (b : AppendFSM) (p : Pipeline) (gatherRoll gatherRev : Int)
    (hs : b.state = AppendState.recvSync) (hp : b.pln = some p) :
    ((∀ e, (p.recvErrVal = some e ∨ (p.recvErrVal = none ∧ p.sendErrVal = some e)) →
       onRecvPipelineSync gatherRoll gatherRev b =
         ({ b with rollToOffset := gatherRoll, readThroughRev := gatherRev,
                   err := some (GoErr.wrapped "gatherSync" e), pln := none, state := .error },
          [Effect.shutdownPipeline true])) ∧
     (p.recvErrVal = none → p.sendErrVal = none →
      ((gatherRoll ≠ 0 →
         onRecvPipelineSync gatherRoll gatherRev b =
           ({ b with rollToOffset := gatherRoll, readThroughRev := gatherRev, err := none,
                     state := .sendSync }, [])) ∧
       (gatherRoll = 0 → gatherRev ≠ 0 →
         onRecvPipelineSync gatherRoll gatherRev b =
           ({ b with rollToOffset := gatherRoll, readThroughRev := gatherRev, err := none,
                     pln := none, state := .resolve }, [Effect.shutdownPipeline false])) ∧
       (gatherRoll = 0 → gatherRev = 0 →
         onRecvPipelineSync gatherRoll gatherRev b =
           ({ b with rollToOffset := gatherRoll, readThroughRev := gatherRev, err := none,
                     state := .updateAsn }, []))))) := by
  constructor
  · rintro e (hrecv | ⟨hrecv, hsend⟩)
    · simp only [onRecvPipelineSync, hs, hp, hrecv]
      rw [if_neg (by simp)]
    · simp only [onRecvPipelineSync, hs, hp, hrecv, hsend]
      rw [if_neg (by simp)]
  · intro hrecv hsend
    refine ⟨?_, ?_, ?_⟩
    · intro hroll
      simp only [onRecvPipelineSync, hs, hp, hrecv, hsend]
      rw [if_neg (by simp), if_pos hroll]
    · intro hroll hrev
      simp only [onRecvPipelineSync, hs, hp, hrecv, hsend]
      rw [if_neg (by simp), if_neg (by simp [hroll]), if_pos hrev]
    · intro hroll hrev
      simp only [onRecvPipelineSync, hs, hp, hrecv, hsend]
      rw [if_neg (by simp), if_neg (by simp [hroll]), if_neg (by simp [hrev])]

/-- Concrete FSM fixture in the recvSync state. -/
def fsmC3 : AppendFSM := { pln := some plnFx, state := .recvSync }

/-- Witness for onRecvPipelineSync_cases: a clean gather with zero roll and
revision proceeds to updateAssignments. -/
theorem onRecvPipelineSync_cases_witness :
    onRecvPipelineSync 0 0 fsmC3 =
      ({ fsmC3 with rollToOffset := 0, readThroughRev := 0, err := none,
                    state := .updateAsn }, []) :=
  ((onRecvPipelineSync_cases fsmC3 plnFx 0 0 rfl rfl).2 rfl rfl).2.2 rfl rfl

/-- Claim C5: onAwaitDesiredReplicas waits on the next coordination-store
revision when the route is over-replicated, errors with
INSUFFICIENT_JOURNAL_BROKERS when under-replicated, and at the desired
replication proceeds to validateOffset when the local process is primary and
to the proxy terminal state otherwise. -/
theorem onAwaitDesiredReplicas_cases (b : AppendFSM)
    (hs : b.state = AppendState.awaitDesired) :
    (((b.resolved.route.members.length : Int) > b.resolved.journalSpec.desiredReplication →
       onAwaitDesiredReplicas b =
         { b with readThroughRev := b.resolved.etcdRevision + 1, state := .resolve }) ∧
     ((b.resolved.route.members.length : Int) < b.resolved.journalSpec.desiredReplication →
       onAwaitDesiredReplicas b =
         { b with resolved := { b.resolved with status := Status.INSUFFICIENT_JOURNAL_BROKERS },
                  state := .error }) ∧
     ((b.resolved.route.members.length : Int) = b.resolved.journalSpec.desiredReplication →
       ((b.resolved.processId = b.resolved.localId →
          onAwaitDesiredReplicas b = { b with state := .validateOffset }) ∧
        (b.resolved.processId ≠ b.resolved.localId →
          onAwaitDesiredReplicas b = { b with state := .proxy })))) := by
  refine ⟨?_, ?_, ?_⟩
  · intro h
    simp only [onAwaitDesiredReplicas, hs, ne_eq, not_true_eq_false, if_false, ite_false]
    rw [if_pos h]
  · intro h
    simp only [onAwaitDesiredReplicas, hs, ne_eq, not_true_eq_false, if_false, ite_false]
    rw [if_neg (by omega), if_pos h]
  · intro h
    constructor
    · intro hpid
      simp only [onAwaitDesiredReplicas, hs, ne_eq, not_true_eq_false, if_false, ite_false]
      rw [if_neg (by omega), if_neg (by omega), if_neg (by simp [hpid])]
    · intro hpid
      simp only [onAwaitDesiredReplicas, hs, ne_eq, not_true_eq_false, if_false, ite_false]
      rw [if_neg (by omega), if_neg (by omega), if_pos (by simp [hpid])]

/-- Concrete process identifier fixture. -/
def pidFx : ProcessId := { zone := "z", suffix := "s" }

/-- Concrete FSM fixture in the awaitDesiredReplicas state with a
correctly-sized route and a local primary. -/
def fsmC5 : AppendFSM :=
  { state := .awaitDesired,
    resolved := { processId := pidFx, localId := pidFx,
                  route := { members := [pidFx], primary := 0 },
                  journalSpec := { desiredReplication := 1 } } }

/-- Witness for onAwaitDesiredReplicas_cases: at the desired replication with
a local primary, the FSM proceeds to validateOffset. -/
theorem onAwaitDesiredReplicas_cases_witness :
    onAwaitDesiredReplicas fsmC5 = { fsmC5 with state := .validateOffset } :=
  ((onAwaitDesiredReplicas_cases fsmC5 rfl).2.2 (by decide)).1 (by decide)

/-- Claim C6: when the send side has errored, onReadAcknowledgements closes
the send side, releases a nil sentinel to the pipeline mailbox (forcing the
next appender to build a fresh pipeline), gathers one acknowledgement per
peer and then drains every peer to EOF before the pipeline is discarded;
when the send side is clean, the pipeline itself is returned and no EOF
drain occurs. -/
theorem onReadAcknowledgements_release (b : AppendFSM) (p : Pipeline)
    (hs : b.state = AppendState.readAcks) (hp : b.pln = some p) :
    ((∀ e, p.sendErrVal = some e →
       (onReadAcknowledgements b).2 =
         [Effect.closeSend, Effect.returnPipeline none, Effect.waitForBarrier,
          Effect.gatherOK, Effect.gatherEOF, Effect.closeAfterBarrier]) ∧
     (p.sendErrVal = none →
       (onReadAcknowledgements b).2 =
         [Effect.returnPipeline (some p), Effect.waitForBarrier, Effect.gatherOK,
          Effect.closeAfterBarrier])) := by
  constructor
  · intro e hsend
    simp only [onReadAcknowledgements, hs, hp, hsend]
    rw [if_neg (by simp)]
    split_ifs <;> simp_all
  · intro hsend
    simp only [onReadAcknowledgements, hs, hp, hsend]
    rw [if_neg (by simp)]
    split_ifs <;> simp_all

/-- Concrete FSM fixture in the readAcknowledgements state with a healthy
pipeline. -/
def fsmC6 : AppendFSM := { pln := some plnFx, state := .readAcks }

/-- Witness for onReadAcknowledgements_release: with a clean send side the
pipeline itself is returned and no EOF drain occurs. -/
theorem onReadAcknowledgements_release_witness :
    (onReadAcknowledgements fsmC6).2 =
      [Effect.returnPipeline (some plnFx), Effect.waitForBarrier, Effect.gatherOK,
       Effect.closeAfterBarrier] :=
  (onReadAcknowledgements_release fsmC6 plnFx rfl rfl).2 rfl

/-- Claim C8: onReadAcknowledgements always closes the barrier-chain release
signal: on every path the final effect, after the wait on its own barrier,
is closing closeAfter, and the FSM then reaches a terminal state — so even
an append whose send side errored releases its receive-side barrier slot. -/
theorem onReadAcknowledgements_closeAfter (b : AppendFSM) (p : Pipeline)
    (hs : b.state = AppendState.readAcks) (hp : b.pln = some p) :
    ∃ l, (onReadAcknowledgements b).2 = l ++ [Effect.closeAfterBarrier] ∧
      Effect.waitForBarrier ∈ l ∧
      ((onReadAcknowledgements b).1.state = AppendState.error ∨
       (onReadAcknowledgements b).1.state = AppendState.finished) := by
  simp only [onReadAcknowledgements, hs, hp]
  rw [if_neg (by simp)]
  cases hsend : p.sendErrVal with
  | none =>
    refine ⟨[Effect.returnPipeline (some p), Effect.waitForBarrier, Effect.gatherOK], ?_⟩
    split_ifs <;> simp_all
  | some e =>
    refine ⟨[Effect.closeSend, Effect.returnPipeline none, Effect.waitForBarrier,
             Effect.gatherOK, Effect.gatherEOF], ?_⟩
    split_ifs <;> simp_all

/-- Concrete FSM fixture in the readAcknowledgements state whose pipeline has
a latched send error. -/
def fsmC8 : AppendFSM := { pln := some plnFxErr, state := .readAcks }

/-- Witness for onReadAcknowledgements_closeAfter at a concrete errored
pipeline. -/
theorem onReadAcknowledgements_closeAfter_witness :
    ∃ l, (onReadAcknowledgements fsmC8).2 = l ++ [Effect.closeAfterBarrier] ∧
      Effect.waitForBarrier ∈ l ∧
      ((onReadAcknowledgements fsmC8).1.state = AppendState.error ∨
       (onReadAcknowledgements fsmC8).1.state = AppendState.finished) :=
  onReadAcknowledgements_closeAfter fsmC8 plnFxErr rfl rfl

lemma routeProcessId_zero_iff (route : Route)
    (hroute : route.primary = -1 ∨
      (0 ≤ route.primary ∧ route.primary < (route.members.length : Int)))
    (hmem : ∀ m ∈ route.members, m ≠ zeroProcessId) :
    (routeProcessId route = zeroProcessId ↔ route.primary = -1) := by
  rcases hroute with h | ⟨h0, hlt⟩
  · simp [routeProcessId, h]
  · constructor
    · intro hz
      by_contra hne
      have hn : route.primary.toNat < route.members.length := by omega
      rw [routeProcessId, if_pos hne, List.getD_eq_getElem _ _ hn] at hz
      exact hmem _ (route.members.getElem_mem hn) hz
    · intro h1
      omega

/-- Claim C7: the consumer resolver's status is SHARD_NOT_FOUND when the spec
is missing, else NO_SHARD_PRIMARY when the route selects no primary member,
else NOT_SHARD_PRIMARY when proxying is disallowed and the primary is not
the local process, else OK — tested in exactly that priority order, so a
missing spec yields SHARD_NOT_FOUND even when there is also no primary.
The route hypotheses state the Route.Init invariant (primary is -1 or a
valid index) and that real member identifiers are non-zero. -/
theorem shardResolveStatus_priority (specPresent : Bool) (route : Route) (mayProxy : Bool)
    (localId : ProcessId)
    (hroute : route.primary = -1 ∨
      (0 ≤ route.primary ∧ route.primary < (route.members.length : Int)))
    (hmem : ∀ m ∈ route.members, m ≠ zeroProcessId) :
    ((shardResolveStatus specPresent route mayProxy localId = ShardStatus.SHARD_NOT_FOUND ↔
        specPresent = false) ∧
     (shardResolveStatus specPresent route mayProxy localId = ShardStatus.NO_SHARD_PRIMARY ↔
        specPresent = true ∧ route.primary = -1) ∧
     (shardResolveStatus specPresent route mayProxy localId = ShardStatus.NOT_SHARD_PRIMARY ↔
        specPresent = true ∧ route.primary ≠ -1 ∧ mayProxy = false ∧
          routeProcessId route ≠ localId) ∧
     (shardResolveStatus specPresent route mayProxy localId = ShardStatus.OK ↔
        specPresent = true ∧ route.primary ≠ -1 ∧
          (mayProxy = true ∨ routeProcessId route = localId))) := by
  have hz := routeProcessId_zero_iff route hroute hmem
  cases specPresent with
  | false => simp [shardResolveStatus]
  | true =>
    by_cases hzp : routeProcessId route = zeroProcessId
    · have hprim : route.primary = -1 := hz.mp hzp
      simp [shardResolveStatus, hzp, hprim]
    · have hprim : route.primary ≠ -1 := fun h => hzp (hz.mpr h)
      cases mayProxy with
      | true => simp [shardResolveStatus, hzp, hprim]
      | false =>
        by_cases hloc : routeProcessId route = localId
        · have hlz : ¬localId = zeroProcessId := hloc ▸ hzp
          simp [shardResolveStatus, hzp, hprim, hloc, hlz]
        · simp [shardResolveStatus, hzp, hprim, hloc]

/-- Concrete single-member route fixture with that member primary. -/
def routeFx : Route := { members := [pidFx], primary := 0 }

/-- Witness for shardResolveStatus_priority: a present spec, a primary equal
to the local process, and proxying disallowed resolve to OK. -/
theorem shardResolveStatus_priority_witness :
    shardResolveStatus true routeFx false pidFx = ShardStatus.OK :=
  (shardResolveStatus_priority true routeFx false pidFx
      (by right; constructor <;> decide) (by decide)).2.2.2.mpr
    ⟨rfl, by decide, Or.inr (by decide)⟩

/-- Concrete fragment fixture ending at offset 5, for the fragment reader. -/
def fragC9 : Fragment := { journal := "j", begin_ := 0, end_ := 5 }

/-- Claim C9 counterexample: when the decompressed source yields bytes past
Fragment.End, the returned count is truncated and ErrDidNotReadExpectedEOF
returned, but the reader's stored Offset advances past Fragment.End — so the
Offset does exceed Fragment.End after the call, contrary to the claim. -/
theorem fragmentReaderRead_offset_exceeds_end :
    (fragmentReaderRead { fragment := fragC9, offset := 3 } 4 none).1.offset = 7 ∧
    fragC9.end_ = 5 ∧
    (fragmentReaderRead { fragment := fragC9, offset := 3 } 4 none).2.1 = 2 ∧
    (fragmentReaderRead { fragment := fragC9, offset := 3 } 4 none).2.2 =
      some GoErr.errDidNotReadExpectedEOF := by
  refine ⟨?_, ?_, ?_, ?_⟩ <;> decide

/-- Claim C9 (amended): FragmentReader.Read truncates the returned count so
the bytes delivered stop exactly at Fragment.End and returns
ErrDidNotReadExpectedEOF when the source overshoots (while the stored Offset
itself advances by the raw count and may exceed End); io.EOF is returned
exactly when the underlying reader returns EOF at precisely
Offset == Fragment.End; and an underlying EOF with Offset < End becomes
io.ErrUnexpectedEOF. -/
theorem fragmentReaderRead_truncation_and_eof (fr : FragmentReader) (n0 : Nat)
    (decompErr : Option GoErr) :
    ((fragmentReaderRead fr n0 decompErr).1.offset = fr.offset + (n0 : Int)) ∧
    (fr.offset + (n0 : Int) > fr.fragment.end_ →
       fr.offset + (fragmentReaderRead fr n0 decompErr).2.1 = fr.fragment.end_ ∧
       (fragmentReaderRead fr n0 decompErr).2.2 = some GoErr.errDidNotReadExpectedEOF) ∧
    ((fragmentReaderRead fr n0 decompErr).2.2 = some GoErr.ioEOF ↔
       decompErr = some GoErr.ioEOF ∧ fr.offset + (n0 : Int) = fr.fragment.end_) ∧
    (decompErr = some GoErr.ioEOF ∧ fr.offset + (n0 : Int) < fr.fragment.end_ →
       (fragmentReaderRead fr n0 decompErr).2.2 = some GoErr.ioErrUnexpectedEOF) := by
  refine ⟨?_, ?_, ?_, ?_⟩
  · simp only [fragmentReaderRead]
    split_ifs <;> rfl
  · intro h
    simp only [fragmentReaderRead]
    rw [if_pos h]
    refine ⟨?_, rfl⟩
    show fr.offset + ((n0 : Int) - (fr.offset + (n0 : Int) - fr.fragment.end_)) =
      fr.fragment.end_
    ring
  · simp only [fragmentReaderRead]
    split_ifs with h1 h2
    · constructor
      · intro hx
        simp at hx
      · rintro ⟨_, heq⟩
        exact absurd heq (by omega)
    · constructor
      · intro hx
        simp at hx
      · rintro ⟨_, heq⟩
        exact absurd (h2.2 heq) not_false
    · constructor
      · intro heq
        refine ⟨heq, ?_⟩
        by_contra hne
        exact h2 ⟨heq, hne⟩
      · rintro ⟨heq, _⟩
        exact heq
  · rintro ⟨rfl, hlt⟩
    simp only [fragmentReaderRead]
    split_ifs with h1 h2
    · exact absurd h1 (by omega)
    · rfl
    · exact absurd ⟨by trivial, by omega⟩ h2

/-- Witness for fragmentReaderRead_truncation_and_eof: an exact EOF at
Fragment.End is passed through as io.EOF. -/
theorem fragmentReaderRead_truncation_and_eof_witness :
    (fragmentReaderRead { fragment := fragC9, offset := 0 } 5 (some GoErr.ioEOF)).2.2 =
      some GoErr.ioEOF :=
  (fragmentReaderRead_truncation_and_eof { fragment := fragC9, offset := 0 } 5
      (some GoErr.ioEOF)).2.2.1.mpr ⟨rfl, by decide⟩

/-- Claim C10: on a received frame with status OK, an offset below the
request offset is rejected as a validation error (the Read contract forbids
regression), while an offset above it advances the Reader's request offset,
returns ErrOffsetJump with zero bytes consumed, and leaves the Reader intact
so subsequent reads continue at the frame's offset. -/
theorem readerOnFrame_ok_cases (r : JReader) (resp : ReadResponse)
    (hv : resp.validateErr = none) (hok : resp.status = Status.OK) :
    ((resp.offset < r.reqOffset →
       readerOnFrame r resp =
         ReadOutcome.ret 0 (some (GoErr.validation "invalid ReadResponse offset"))
           { r with response := resp }) ∧
     (r.reqOffset < resp.offset →
       readerOnFrame r resp =
         ReadOutcome.ret 0 (some GoErr.errOffsetJump)
           { r with reqOffset := resp.offset, response := resp })) := by
  constructor
  · intro h
    simp [readerOnFrame, hv, hok, h]
  · intro h
    have hno : ¬(resp.offset < r.reqOffset) := by omega
    simp [readerOnFrame, hv, hok, h, hno]

/-- Concrete Reader fixture requesting offset 5. -/
def jReaderFx : JReader := { reqOffset := 5 }

/-- Concrete OK response frame fixture at offset 7. -/
def respFx : ReadResponse := { status := .OK, offset := 7 }

/-- Witness for readerOnFrame_ok_cases: an OK frame ahead of the requested
offset yields ErrOffsetJump with the request offset advanced. -/
theorem readerOnFrame_ok_cases_witness :
    readerOnFrame jReaderFx respFx =
      ReadOutcome.ret 0 (some GoErr.errOffsetJump)
        { jReaderFx with reqOffset := respFx.offset, response := respFx } :=
  (readerOnFrame_ok_cases jReaderFx respFx rfl rfl).2 (by decide)

lemma streamContentTerminal_pln (p : Pipeline) (b : AppendFSM) (c : Bool)
    (e : Option GoErr) (cf : Fragment) (s : List Nat) (st : Status) (fx : List Effect) :
    (streamContentTerminal p b c e cf s st fx).1.pln = b.pln := by
  simp only [streamContentTerminal]
  split_ifs <;> rfl

lemma streamContentCore_pln (req : AppendRequest) (err0 : Option GoErr) (b : AppendFSM)
    (p : Pipeline) :
    (streamContentCore req err0 b p).1.pln = some (streamContentInit b p).1 := by
  simp only [streamContentCore]
  split_ifs <;> simp [streamContentTerminal_pln]

lemma onStreamContent_pln_isSome (req : AppendRequest) (err0 : Option GoErr) (b : AppendFSM) :
    ((onStreamContent req err0 b).1.pln).isSome = b.pln.isSome := by
  by_cases hs : b.state = AppendState.streamContent
  · cases hp : b.pln with
    | none => simp [onStreamContent, hs, hp]
    | some p =>
      rw [onStreamContent_eq_core req err0 b p hs hp, streamContentCore_pln]
      simp [hp]
  · simp [onStreamContent, hs]

lemma onStreamContent_deadline (b : AppendFSM) (p : Pipeline)
    (hs : b.state = AppendState.streamContent) (hp : b.pln = some p) :
    ∃ p1, (onStreamContent nilAppendRequest (some GoErr.deadlineExceeded) b).1.pln = some p1 ∧
      (onStreamContent nilAppendRequest (some GoErr.deadlineExceeded) b).1.state =
        AppendState.readAcks ∧
      (onStreamContent nilAppendRequest (some GoErr.deadlineExceeded) b).1.err =
        some (GoErr.wrapped "append stream" GoErr.deadlineExceeded) ∧
      ∃ l, (onStreamContent nilAppendRequest (some GoErr.deadlineExceeded) b).2 =
        l ++ [Effect.scatter { proposal := some p1.spool.fragment, acknowledge := true }] := by
  rw [onStreamContent_eq_core _ _ b p hs hp]
  simp only [streamContentCore]
  rw [if_neg (by simp [streamContentErr]), if_neg (by simp [streamContentErr]),
      if_neg (by simp [streamContentErr]), if_neg (by simp [streamContentErr]),
      if_neg (by simp [streamContentErr]),
      streamContentTerminal_rollback _ _ _ _ _ _ _ _ (by simp [streamContentErr])]
  exact ⟨_, rfl, rfl, rfl, _, rfl⟩

lemma runLoop_snoc (b : AppendFSM) (saw : Bool) (l : List StreamEvent) (e : StreamEvent) :
    runLoop b saw (l ++ [e]) = runLoopStep (runLoop b saw l) e := by
  simp [runLoop, List.foldl_append]

lemma foldl_runLoopStep_stuck (post : List StreamEvent) (s : AppendFSM × Bool × List Effect)
    (h : s.1.state ≠ AppendState.streamContent) :
    post.foldl runLoopStep s = s := by
  induction post with
  | nil => rfl
  | cons e es ih =>
    simp only [List.foldl_cons]
    rw [show runLoopStep s e = s from by simp only [runLoopStep]; rw [if_pos h]]
    exact ih

lemma runLoopStep_pln_isSome (s : AppendFSM × Bool × List Effect) (e : StreamEvent) :
    ((runLoopStep s e).1.pln).isSome = s.1.pln.isSome := by
  by_cases h : s.1.state ≠ AppendState.streamContent
  · rw [show runLoopStep s e = s from by simp only [runLoopStep]; rw [if_pos h]]
  · simp only [runLoopStep]
    rw [if_neg h]
    cases e with
    | chunk req err => simp [onStreamContent_pln_isSome]
    | tick =>
      by_cases hsaw : s.2.1
      · simp [hsaw]
      · simp [hsaw, onStreamContent_pln_isSome]

lemma runLoop_pln_isSome (b : AppendFSM) (saw : Bool) (l : List StreamEvent) :
    ((runLoop b saw l).1.pln).isSome = b.pln.isSome := by
  suffices h : ∀ s : AppendFSM × Bool × List Effect,
      ((l.foldl runLoopStep s).1.pln).isSome = s.1.pln.isSome by
    exact h (b, saw, [])
  induction l with
  | nil => intro s; rfl
  | cons e es ih =>
    intro s
    simp only [List.foldl_cons]
    rw [ih, runLoopStep_pln_isSome]

lemma runLoopStep_tick_saw (s : AppendFSM × Bool × List Effect)
    (h : (runLoopStep s StreamEvent.tick).1.state = AppendState.streamContent) :
    (runLoopStep s StreamEvent.tick).2.1 = false := by
  by_cases hst : s.1.state ≠ AppendState.streamContent
  · rw [show runLoopStep s StreamEvent.tick = s from by
      simp only [runLoopStep]; rw [if_pos hst]] at h
    exact absurd h hst
  · simp only [runLoopStep]
    rw [if_neg hst]
    by_cases hsaw : s.2.1
    · simp [hsaw]
    · simp [hsaw]

lemma runLoopStep_tick_inject (s : AppendFSM × Bool × List Effect)
    (hst : s.1.state = AppendState.streamContent) (hsaw : s.2.1 = false) :
    runLoopStep s StreamEvent.tick =
      ((onStreamContent nilAppendRequest (some GoErr.deadlineExceeded) s.1).1, false,
       s.2.2 ++ (Effect.injectDeadline ::
         (onStreamContent nilAppendRequest (some GoErr.deadlineExceeded) s.1).2)) := by
  simp only [runLoopStep]
  rw [if_neg (by simp [hst]), if_neg (by simp [hsaw])]

lemma mem_scatter_append {x : Effect} {fx : List Effect}
    (hfx : ∀ y ∈ fx, ∃ rr, y = Effect.scatter rr) (rr0 : ReplicateRequest)
    (hx : x ∈ fx ++ [Effect.scatter rr0]) : ∃ rr, x = Effect.scatter rr := by
  rcases List.mem_append.mp hx with h | h
  · exact hfx x h
  · exact ⟨rr0, by simpa using h⟩

lemma streamContentTerminal_fx (p : Pipeline) (b : AppendFSM) (c : Bool) (e : Option GoErr)
    (cf : Fragment) (su : List Nat) (st : Status) (fx : List Effect) :
    (streamContentTerminal p b c e cf su st fx).2 = fx ∨
    ∃ rr, (streamContentTerminal p b c e cf su st fx).2 = fx ++ [Effect.scatter rr] := by
  simp only [streamContentTerminal]
  split_ifs
  · exact Or.inl rfl
  · exact Or.inr ⟨_, rfl⟩
  · exact Or.inr ⟨_, rfl⟩

lemma streamContentTerminal_scatters (p : Pipeline) (b : AppendFSM) (c : Bool)
    (e : Option GoErr) (cf : Fragment) (su : List Nat) (st : Status) {fx : List Effect}
    (hfx : ∀ y ∈ fx, ∃ rr, y = Effect.scatter rr) :
    ∀ x ∈ (streamContentTerminal p b c e cf su st fx).2, ∃ rr, x = Effect.scatter rr := by
  intro x hx
  rcases streamContentTerminal_fx p b c e cf su st fx with hq | ⟨rr0, hq⟩
  · rw [hq] at hx
    exact hfx x hx
  · rw [hq] at hx
    exact mem_scatter_append hfx rr0 hx

lemma streamContentInit_fx (b : AppendFSM) (p : Pipeline) :
    ∀ x ∈ (streamContentInit b p).2.2.2, ∃ rr, x = Effect.scatter rr := by
  simp only [streamContentInit]
  split_ifs <;> simp

lemma onStreamContent_scatters (req : AppendRequest) (err0 : Option GoErr) (b : AppendFSM) :
    ∀ x ∈ (onStreamContent req err0 b).2, ∃ rr, x = Effect.scatter rr := by
  intro x hx
  by_cases hs : b.state = AppendState.streamContent
  · cases hp : b.pln with
    | none =>
      rw [show onStreamContent req err0 b = ({ b with state := .panicked }, []) from by
        simp [onStreamContent, hs, hp]] at hx
      simp at hx
    | some p =>
      rw [onStreamContent_eq_core req err0 b p hs hp] at hx
      have hinit := streamContentInit_fx b p
      simp only [streamContentCore] at hx
      split_ifs at hx
      all_goals first
        | exact streamContentTerminal_scatters _ _ _ _ _ _ _ hinit x hx
        | exact streamContentTerminal_scatters _ _ _ _ _ _ _
            (fun y hy => mem_scatter_append hinit _ hy) x hx
        | exact hinit x hx
        | exact mem_scatter_append hinit _ hx
  · rw [show onStreamContent req err0 b = ({ b with state := .panicked }, []) from by
      simp [onStreamContent, hs]] at hx
    simp at hx

lemma foldl_wellFed (l : List StreamEvent) :
    ∀ (b : AppendFSM) (saw : Bool) (fx : List Effect),
      wellFed saw l = true →
      Effect.injectDeadline ∉ fx →
      Effect.injectDeadline ∉ (l.foldl runLoopStep (b, saw, fx)).2.2 := by
  induction l with
  | nil =>
    intro b saw fx _ hnot
    exact hnot
  | cons e es ih =>
    intro b saw fx hwf hnot
    by_cases hst : (b : AppendFSM).state ≠ AppendState.streamContent
    · rw [show (e :: es).foldl runLoopStep (b, saw, fx) = (b, saw, fx) from
        foldl_runLoopStep_stuck _ _ hst]
      exact hnot
    · cases e with
      | chunk req err =>
        simp only [List.foldl_cons, runLoopStep]
        rw [if_neg hst]
        have hnot2 : Effect.injectDeadline ∉
            fx ++ (onStreamContent req err b).2 := by
          intro hmem
          rcases List.mem_append.mp hmem with h | h
          · exact hnot h
          · obtain ⟨rr, hrr⟩ := onStreamContent_scatters req err b _ h
            simp at hrr
        exact ih _ true _ (by simpa [wellFed] using hwf) hnot2
      | tick =>
        have hwf2 : saw = true ∧ wellFed false es = true := by
          simpa [wellFed, Bool.and_eq_true] using hwf
        simp only [List.foldl_cons, runLoopStep]
        rw [if_neg hst, if_pos (by simp [hwf2.1])]
        exact ih _ false _ hwf2.2 hnot

/-- Claim C4: in the streamContent consumption loop of appendFSM.run, two
consecutive ticks of the appendChunkTimeout ticker with no chunk delivered
between them (and the FSM still streaming) inject context.DeadlineExceeded
into onStreamContent, which aborts the append stream (terminal state
readAcknowledgements, with the deadline error wrapped) and scatters the
spool's current fragment as an acknowledged rollback proposal; and a chunk
arriving within every tick period resets the timeout, so a well-fed event
sequence never has a deadline injected by the timer. -/
theorem runLoop_chunk_timeout :
    ((∀ (b : AppendFSM) (p : Pipeline) (saw : Bool) (pre post : List StreamEvent),
        b.pln = some p →
        (runLoop b saw (pre ++ [StreamEvent.tick])).1.state = AppendState.streamContent →
        ∃ p1,
          (runLoop b saw (pre ++ [StreamEvent.tick, StreamEvent.tick] ++ post)).1.pln =
            some p1 ∧
          (runLoop b saw (pre ++ [StreamEvent.tick, StreamEvent.tick] ++ post)).1.state =
            AppendState.readAcks ∧
          (runLoop b saw (pre ++ [StreamEvent.tick, StreamEvent.tick] ++ post)).1.err =
            some (GoErr.wrapped "append stream" GoErr.deadlineExceeded) ∧
          Effect.injectDeadline ∈
            (runLoop b saw (pre ++ [StreamEvent.tick, StreamEvent.tick] ++ post)).2.2 ∧
          Effect.scatter { proposal := some p1.spool.fragment, acknowledge := true } ∈
            (runLoop b saw (pre ++ [StreamEvent.tick, StreamEvent.tick] ++ post)).2.2) ∧
     (∀ (b : AppendFSM) (saw : Bool) (events : List StreamEvent),
        wellFed saw events = true →
        Effect.injectDeadline ∉ (runLoop b saw events).2.2)) := by
  constructor
  · intro b p saw pre post hp h1
    have hdecomp : pre ++ [StreamEvent.tick, StreamEvent.tick] ++ post =
        (pre ++ [StreamEvent.tick]) ++ (StreamEvent.tick :: post) := by simp
    rw [hdecomp]
    have h1' : (runLoopStep (runLoop b saw pre) StreamEvent.tick).1.state =
        AppendState.streamContent := by
      rw [← runLoop_snoc]
      exact h1
    have hsaw : (runLoop b saw (pre ++ [StreamEvent.tick])).2.1 = false := by
      rw [runLoop_snoc]
      exact runLoopStep_tick_saw _ h1'
    have hpln : ((runLoop b saw (pre ++ [StreamEvent.tick])).1.pln).isSome = true := by
      rw [runLoop_pln_isSome, hp]
      rfl
    obtain ⟨p0, hp0⟩ := Option.isSome_iff_exists.mp hpln
    obtain ⟨p1, hpl1, hst1, herr1, l0, hfx1⟩ :=
      onStreamContent_deadline (runLoop b saw (pre ++ [StreamEvent.tick])).1 p0 h1 hp0
    have hrun : runLoop b saw
          ((pre ++ [StreamEvent.tick]) ++ (StreamEvent.tick :: post)) =
        (StreamEvent.tick :: post).foldl runLoopStep
          (runLoop b saw (pre ++ [StreamEvent.tick])) := by
      simp [runLoop, List.foldl_append]
    have hstep := runLoopStep_tick_inject (runLoop b saw (pre ++ [StreamEvent.tick])) h1 hsaw
    have hrest : post.foldl runLoopStep
          ((onStreamContent nilAppendRequest (some GoErr.deadlineExceeded)
              (runLoop b saw (pre ++ [StreamEvent.tick])).1).1, false,
           (runLoop b saw (pre ++ [StreamEvent.tick])).2.2 ++
             (Effect.injectDeadline ::
               (onStreamContent nilAppendRequest (some GoErr.deadlineExceeded)
                 (runLoop b saw (pre ++ [StreamEvent.tick])).1).2)) =
        ((onStreamContent nilAppendRequest (some GoErr.deadlineExceeded)
            (runLoop b saw (pre ++ [StreamEvent.tick])).1).1, false,
         (runLoop b saw (pre ++ [StreamEvent.tick])).2.2 ++
           (Effect.injectDeadline ::
             (onStreamContent nilAppendRequest (some GoErr.deadlineExceeded)
               (runLoop b saw (pre ++ [StreamEvent.tick])).1).2)) := by
      apply foldl_runLoopStep_stuck
      rw [hst1]
      simp
    rw [hrun]
    simp only [List.foldl_cons, hstep, hrest]
    refine ⟨p1, hpl1, hst1, herr1, by simp, ?_⟩
    rw [hfx1]
    simp
  · intro b saw events hwf
    exact foldl_wellFed events b saw [] hwf (by simp)

/-- Concrete streaming FSM fixture for the timeout loop. -/
def fsmC4 : AppendFSM :=
  { pln := some plnFx, clientFragment := some fragFxNext, state := .streamContent }

/-- Witness for runLoop_chunk_timeout: two back-to-back ticks abort a
concrete streaming append with a rollback, while a chunk-then-tick sequence
is never aborted by the timer. -/
theorem runLoop_chunk_timeout_witness :
    (∃ p1,
       (runLoop fsmC4 true ([] ++ [StreamEvent.tick, StreamEvent.tick] ++ [])).1.pln =
         some p1 ∧
       (runLoop fsmC4 true ([] ++ [StreamEvent.tick, StreamEvent.tick] ++ [])).1.state =
         AppendState.readAcks ∧
       (runLoop fsmC4 true ([] ++ [StreamEvent.tick, StreamEvent.tick] ++ [])).1.err =
         some (GoErr.wrapped "append stream" GoErr.deadlineExceeded) ∧
       Effect.injectDeadline ∈
         (runLoop fsmC4 true ([] ++ [StreamEvent.tick, StreamEvent.tick] ++ [])).2.2 ∧
       Effect.scatter { proposal := some p1.spool.fragment, acknowledge := true } ∈
         (runLoop fsmC4 true ([] ++ [StreamEvent.tick, StreamEvent.tick] ++ [])).2.2) ∧
    Effect.injectDeadline ∉
      (runLoop fsmC4 true
        [StreamEvent.chunk nilAppendRequest none, StreamEvent.tick]).2.2 :=
  ⟨runLoop_chunk_timeout.1 fsmC4 plnFx true [] [] rfl (by decide),
   runLoop_chunk_timeout.2 fsmC4 true
     [StreamEvent.chunk nilAppendRequest none, StreamEvent.tick] (by decide)⟩
